import Mathlib

/-
Verification of the ledger aggregation engine and ledger mutator of
`core.py` (accounting statements over SQLite).

Monetary amounts are modelled as integers (the spec's sanctioned
cents-scaled-integer reading of the REAL columns; every constant in the
repository is integral). The queries only add, subtract, negate and
compare amounts, so every statement below is insensitive to the choice
of coefficient ring.

SQL NULL (as produced by `SUM` over an empty set of rows) is modelled
with `Option Int`.
-/

set_option maxRecDepth 8000

namespace Accounting

/-- A row of the `accounts` table
(`account_id INTEGER PRIMARY KEY, account_name TEXT NOT NULL, account_type TEXT NOT NULL`). -/
structure Account where
  account_id : Int
  account_name : String
  account_type : String
deriving DecidableEq, Repr

/-- A row of the `journal_entries` table
(`entry_id INTEGER PRIMARY KEY, account_id INTEGER NOT NULL, entry_date TEXT NOT NULL,
debit REAL NOT NULL DEFAULT 0, credit REAL NOT NULL DEFAULT 0`).
Note: the schema created by `init_db` declares no FOREIGN KEY clause on `account_id`. -/
structure JournalEntry where
  entry_id : Int
  account_id : Int
  entry_date : String
  debit : Int
  credit : Int
deriving DecidableEq, Repr

/-- Contents of the SQLite database: the two tables. -/
structure LedgerState where
  accounts : List Account
  journal_entries : List JournalEntry
deriving DecidableEq, Repr

/-- `FROM journal_entries j JOIN accounts a ON j.account_id = a.account_id`:
all matching (entry, account) pairs. -/
def joinRows (s : LedgerState) : List (JournalEntry × Account) :=
  s.journal_entries.flatMap fun j =>
    (s.accounts.filter fun a => a.account_id == j.account_id).map fun a => (j, a)

/-- `GROUP BY` keys: the distinct values of the grouping columns among the rows. -/
def groupKeys {α κ : Type} [DecidableEq κ] (key : α → κ) (l : List α) : List κ :=
  (l.map key).dedup

/-- The rows of one `GROUP BY` group. -/
def fiber {α κ : Type} [DecidableEq κ] (key : α → κ) (l : List α) (k : κ) : List α :=
  l.filter fun x => key x == k

/-- `SUM(f)` within one `GROUP BY` group. -/
def groupSum {α κ : Type} [DecidableEq κ] (key : α → κ) (f : α → Int) (l : List α)
    (k : κ) : Int :=
  ((fiber key l k).map f).sum

/-- Lexicographic `<` on character lists (codepoint order, which agrees with
SQLite's BINARY byte order on the ASCII data of this repository). -/
def strLtList : List Char → List Char → Bool
  | [], [] => false
  | [], _ :: _ => true
  | _ :: _, [] => false
  | c :: cs, d :: ds => decide (c < d) || (c == d && strLtList cs ds)

/-- Strict `<` on strings for `ORDER BY`, mirroring SQLite's BINARY collation. -/
def strLt (a b : String) : Bool :=
  strLtList a.data b.data

/-- Boolean `≤` on strings for `ORDER BY`. -/
def strLe (a b : String) : Bool :=
  strLt a b || a == b

/-- The `CASE account_type ... END AS section` display mapping. -/
def sectionName (t : String) : String :=
  if t = "Asset" then "Assets"
  else if t = "Liability" then "Liabilities"
  else if t = "Equity" then "Equity"
  else if t = "Revenue" then "Revenues"
  else if t = "Expense" then "Expenses"
  else t

/-- The `ORDER BY CASE ... END` fixed type rank used by `SQL_TRIAL_BALANCE_LONG`. -/
def typeRank (t : String) : Nat :=
  if t = "Asset" then 1
  else if t = "Liability" then 2
  else if t = "Equity" then 3
  else if t = "Revenue" then 4
  else if t = "Expense" then 5
  else 6

/-! ## SQL_ACCOUNT_BALANCES -/

/-- Output row of `SQL_ACCOUNT_BALANCES`. -/
structure ABRow where
  account_id : Int
  account_name : String
  account_type : String
  total_debit : Int
  total_credit : Int
  balance : Int
deriving DecidableEq, Repr

/-- Grouping key of `SQL_ACCOUNT_BALANCES`:
`GROUP BY a.account_id, a.account_name, a.account_type`. -/
def abKey (r : JournalEntry × Account) : Int × String × String :=
  (r.2.account_id, r.2.account_name, r.2.account_type)

def abKeys (s : LedgerState) : List (Int × String × String) :=
  groupKeys abKey (joinRows s)

/-- `ORDER BY account_type, account_name`. -/
def abLe (x y : Int × String × String) : Bool :=
  strLt x.2.2 y.2.2 || (x.2.2 == y.2.2 && strLe x.2.1 y.2.1)

def mkABRow (rows : List (JournalEntry × Account)) (k : Int × String × String) : ABRow :=
  { account_id := k.1
    account_name := k.2.1
    account_type := k.2.2
    total_debit := groupSum abKey (fun r => r.1.debit) rows k
    total_credit := groupSum abKey (fun r => r.1.credit) rows k
    balance := groupSum abKey (fun r => r.1.debit - r.1.credit) rows k }

/-- `SQL_ACCOUNT_BALANCES` as a function of the joined rows. -/
def account_balances_rows (rows : List (JournalEntry × Account)) : List ABRow :=
  (List.insertionSort (fun x y => abLe x y = true) (groupKeys abKey rows)).map
    (mkABRow rows)

/-- `get_account_balances` / `SQL_ACCOUNT_BALANCES`. -/
def get_account_balances (s : LedgerState) : List ABRow :=
  account_balances_rows (joinRows s)

/-! ## SQL_TRIAL_BALANCE_LONG -/

/-- Output row of `SQL_TRIAL_BALANCE_LONG` (`section` is a Lean keyword,
hence the field name `section_col`). -/
structure TBLongRow where
  section_col : String
  account_name : String
  debit : Int
  credit : Int
deriving DecidableEq, Repr

/-- Grouping key of `SQL_TRIAL_BALANCE_LONG`:
`GROUP BY a.account_name, a.account_type` (no account_id!). -/
def tbLongKey (r : JournalEntry × Account) : String × String :=
  (r.2.account_name, r.2.account_type)

def tbLongKeys (s : LedgerState) : List (String × String) :=
  groupKeys tbLongKey (joinRows s)

/-- `SUM(j.debit - j.credit) AS balance` for one (account_name, account_type) group. -/
def tbLongBalance (s : LedgerState) (k : String × String) : Int :=
  groupSum tbLongKey (fun r => r.1.debit - r.1.credit) (joinRows s) k

/-- `ORDER BY` type rank then account name. -/
def tbLongLe (x y : String × String) : Bool :=
  decide (typeRank x.2 < typeRank y.2) || (typeRank x.2 == typeRank y.2 && strLe x.1 y.1)

def mkTBLongRow (rows : List (JournalEntry × Account)) (k : String × String) : TBLongRow :=
  let b := groupSum tbLongKey (fun r => r.1.debit - r.1.credit) rows k
  { section_col := sectionName k.2
    account_name := k.1
    debit := if b >= 0 then b else 0
    credit := if b < 0 then -b else 0 }

/-- `SQL_TRIAL_BALANCE_LONG` as a function of the joined rows. -/
def trial_balance_long_rows (rows : List (JournalEntry × Account)) : List TBLongRow :=
  (List.insertionSort (fun x y => tbLongLe x y = true) (groupKeys tbLongKey rows)).map
    (mkTBLongRow rows)

/-- `get_trial_balance_long` / `SQL_TRIAL_BALANCE_LONG`. -/
def get_trial_balance_long (s : LedgerState) : List TBLongRow :=
  trial_balance_long_rows (joinRows s)

/-! ## SQL_TRIAL_BALANCE_SHORT -/

/-- Output row of `SQL_TRIAL_BALANCE_SHORT`. -/
structure TBShortRow where
  account_id : Int
  account_name : String
  account_type : String
  debit : Int
  credit : Int
deriving DecidableEq, Repr

/-- Grouping key: `GROUP BY a.account_id, a.account_name, a.account_type`. -/
def tbShortKeys (s : LedgerState) : List (Int × String × String) :=
  groupKeys abKey (joinRows s)

def tbShortBalance (s : LedgerState) (k : Int × String × String) : Int :=
  groupSum abKey (fun r => r.1.debit - r.1.credit) (joinRows s) k

/-- `ORDER BY account_name`. -/
def tbShortLe (x y : Int × String × String) : Bool :=
  strLe x.2.1 y.2.1

def mkTBShortRow (rows : List (JournalEntry × Account)) (k : Int × String × String) :
    TBShortRow :=
  let b := groupSum abKey (fun r => r.1.debit - r.1.credit) rows k
  { account_id := k.1
    account_name := k.2.1
    account_type := k.2.2
    debit := if b >= 0 then b else 0
    credit := if b < 0 then -b else 0 }

/-- `SQL_TRIAL_BALANCE_SHORT` as a function of the joined rows. -/
def trial_balance_short_rows (rows : List (JournalEntry × Account)) : List TBShortRow :=
  (List.insertionSort (fun x y => tbShortLe x y = true) (groupKeys abKey rows)).map
    (mkTBShortRow rows)

/-- `get_trial_balance_short` / `SQL_TRIAL_BALANCE_SHORT`. -/
def get_trial_balance_short (s : LedgerState) : List TBShortRow :=
  trial_balance_short_rows (joinRows s)

/-! ## SQL_BS_DETAIL and SQL_BS_TOTALS -/

/-- `WHERE a.account_type IN ('Asset','Liability','Equity')`. -/
def bsFilter (rows : List (JournalEntry × Account)) : List (JournalEntry × Account) :=
  rows.filter fun r =>
    r.2.account_type == "Asset" || r.2.account_type == "Liability" ||
      r.2.account_type == "Equity"

/-- The filtered join underlying the `bs_accounts` CTE. -/
def bsJoin (s : LedgerState) : List (JournalEntry × Account) :=
  bsFilter (joinRows s)

/-- Grouping key of the `bs_accounts` CTE: `GROUP BY a.account_name, a.account_type`. -/
def bsKeys (s : LedgerState) : List (String × String) :=
  groupKeys tbLongKey (bsJoin s)

def bsBalance (s : LedgerState) (k : String × String) : Int :=
  groupSum tbLongKey (fun r => r.1.debit - r.1.credit) (bsJoin s) k

/-- The `CASE account_type ... END AS section` of `SQL_BS_DETAIL` has no ELSE arm:
an unmatched type would yield NULL, hence `Option String`
(unreachable, since the WHERE clause restricts the types). -/
def bsSection (t : String) : Option String :=
  if t = "Asset" then some "Assets"
  else if t = "Liability" then some "Liabilities"
  else if t = "Equity" then some "Equity"
  else none

/-- `ORDER BY CASE account_type WHEN 'Asset' THEN 1 ... END, account_name`
(the CASE has no ELSE arm; the fallback rank is unreachable under the WHERE clause). -/
def bsRank (t : String) : Nat :=
  if t = "Asset" then 1
  else if t = "Liability" then 2
  else if t = "Equity" then 3
  else 4

def bsLe (x y : String × String) : Bool :=
  decide (bsRank x.2 < bsRank y.2) || (bsRank x.2 == bsRank y.2 && strLe x.1 y.1)

/-- Output row of `SQL_BS_DETAIL`. -/
structure BSDetailRow where
  section_col : Option String
  account_name : String
  balance : Int
deriving DecidableEq, Repr

def mkBSDetailRow (brows : List (JournalEntry × Account)) (k : String × String) :
    BSDetailRow :=
  { section_col := bsSection k.2
    account_name := k.1
    balance := groupSum tbLongKey (fun r => r.1.debit - r.1.credit) brows k }

/-- `SQL_BS_DETAIL` as a function of the joined rows. -/
def bs_detail_rows (rows : List (JournalEntry × Account)) : List BSDetailRow :=
  (List.insertionSort (fun x y => bsLe x y = true)
      (groupKeys tbLongKey (bsFilter rows))).map (mkBSDetailRow (bsFilter rows))

/-- The detail output of `get_balance_sheet_detail_totals` / `SQL_BS_DETAIL`. -/
def get_bs_detail (s : LedgerState) : List BSDetailRow :=
  bs_detail_rows (joinRows s)

/-- Output row of `SQL_BS_TOTALS`. Every field is an aggregate over the
`bs_accounts` CTE; `SUM` over zero rows is NULL, hence `Option Int`. -/
structure BSTotalsRow where
  total_assets : Option Int
  total_liabilities : Option Int
  total_equity : Option Int
  balance_difference : Option Int
deriving DecidableEq, Repr

/-- `SUM(CASE WHEN account_type = 'Asset' THEN balance ELSE 0 END)` over `bs_accounts`,
assuming at least one row (the NULL case is handled in `get_bs_totals`). -/
def bsAssetsTotal (s : LedgerState) : Int :=
  ((bsKeys s).map fun k => if k.2 == "Asset" then bsBalance s k else 0).sum

def bsLiabilitiesTotal (s : LedgerState) : Int :=
  ((bsKeys s).map fun k => if k.2 == "Liability" then bsBalance s k else 0).sum

def bsEquityTotal (s : LedgerState) : Int :=
  ((bsKeys s).map fun k => if k.2 == "Equity" then bsBalance s k else 0).sum

/-- `SQL_BS_TOTALS` as a function of the joined rows.
An aggregate query without GROUP BY always returns exactly one row; when
`bs_accounts` has no row each `SUM` is NULL and so is the difference. -/
def bs_totals_rows (rows : List (JournalEntry × Account)) : List BSTotalsRow :=
  let brows := bsFilter rows
  let ks := groupKeys tbLongKey brows
  let bal := groupSum tbLongKey (fun r => r.1.debit - r.1.credit) brows
  if ks = [] then
    [{ total_assets := none, total_liabilities := none, total_equity := none
       balance_difference := none }]
  else
    let ta := (ks.map fun k => if k.2 == "Asset" then bal k else 0).sum
    let tl := (ks.map fun k => if k.2 == "Liability" then bal k else 0).sum
    let te := (ks.map fun k => if k.2 == "Equity" then bal k else 0).sum
    [{ total_assets := some ta
       total_liabilities := some tl
       total_equity := some te
       balance_difference := some (ta - (tl + te)) }]

/-- The totals output of `get_balance_sheet_detail_totals` / `SQL_BS_TOTALS`. -/
def get_bs_totals (s : LedgerState) : List BSTotalsRow :=
  bs_totals_rows (joinRows s)

/-- `get_balance_sheet_detail_totals` returns the (detail, totals) pair. -/
def get_balance_sheet_detail_totals (s : LedgerState) :
    List BSDetailRow × List BSTotalsRow :=
  (get_bs_detail s, get_bs_totals s)

/-! ## SQL_INCOME_STATEMENT -/

/-- `WHERE a.account_type IN ('Revenue', 'Expense')`. -/
def ieFilter (rows : List (JournalEntry × Account)) : List (JournalEntry × Account) :=
  rows.filter fun r =>
    r.2.account_type == "Revenue" || r.2.account_type == "Expense"

/-- The filtered join underlying the `ie` CTE. -/
def ieJoin (s : LedgerState) : List (JournalEntry × Account) :=
  ieFilter (joinRows s)

/-- Grouping key of the `ie` CTE: `GROUP BY a.account_type, a.account_name`. -/
def ieKey (r : JournalEntry × Account) : String × String :=
  (r.2.account_type, r.2.account_name)

def ieKeys (s : LedgerState) : List (String × String) :=
  groupKeys ieKey (ieJoin s)

/-- `SUM(j.debit - j.credit) AS balance` for one (account_type, account_name) group
of the `ie` CTE. -/
def ieBalance (s : LedgerState) (k : String × String) : Int :=
  groupSum ieKey (fun r => r.1.debit - r.1.credit) (ieJoin s) k

/-- Output row of `SQL_INCOME_STATEMENT`; `Option Int` models the NULL the
aggregates produce when the `ie` CTE is empty. -/
structure ISRow where
  total_revenue : Option Int
  total_expense : Option Int
  net_income : Option Int
deriving DecidableEq, Repr

/-- `SUM(CASE WHEN account_type = 'Revenue' THEN -balance ELSE 0 END)` over `ie`,
assuming at least one row. -/
def isRevenueTotal (s : LedgerState) : Int :=
  ((ieKeys s).map fun k => if k.1 == "Revenue" then -(ieBalance s k) else 0).sum

def isExpenseTotal (s : LedgerState) : Int :=
  ((ieKeys s).map fun k => if k.1 == "Expense" then ieBalance s k else 0).sum

/-- `SQL_INCOME_STATEMENT` as a function of the joined rows.
The final aggregate-only SELECT always yields exactly one row; with an empty
`ie` CTE the sums are NULL. -/
def income_statement_rows (rows : List (JournalEntry × Account)) : List ISRow :=
  let irows := ieFilter rows
  let ks := groupKeys ieKey irows
  let bal := groupSum ieKey (fun r => r.1.debit - r.1.credit) irows
  if ks = [] then
    [{ total_revenue := none, total_expense := none, net_income := none }]
  else
    let tr := (ks.map fun k => if k.1 == "Revenue" then -bal k else 0).sum
    let te := (ks.map fun k => if k.1 == "Expense" then bal k else 0).sum
    [{ total_revenue := some tr
       total_expense := some te
       net_income := some (tr - te) }]

/-- `get_income_statement_summary` / `SQL_INCOME_STATEMENT`. -/
def get_income_statement_summary (s : LedgerState) : List ISRow :=
  income_statement_rows (joinRows s)

/-! ## SQL_SEED_DATA and the ledger mutator -/

/-- The 13 accounts inserted by `SQL_SEED_DATA`. -/
def seedAccounts : List Account :=
  [⟨1, "Cash", "Asset"⟩,
   ⟨2, "Accounts Receivable", "Asset"⟩,
   ⟨3, "Inventory", "Asset"⟩,
   ⟨4, "Equipment", "Asset"⟩,
   ⟨5, "Accounts Payable", "Liability"⟩,
   ⟨6, "Notes Payable", "Liability"⟩,
   ⟨7, "Owner Capital", "Equity"⟩,
   ⟨8, "Owner Drawings", "Equity"⟩,
   ⟨9, "Service Revenue", "Revenue"⟩,
   ⟨10, "Sales Revenue", "Revenue"⟩,
   ⟨11, "Rent Expense", "Expense"⟩,
   ⟨12, "Wages Expense", "Expense"⟩,
   ⟨13, "Supplies Expense", "Expense"⟩]

/-- The 18 journal entries inserted by `SQL_SEED_DATA`. -/
def seedEntries : List JournalEntry :=
  [⟨1, 1, "2025-01-01", 50000, 0⟩,
   ⟨2, 7, "2025-01-01", 0, 50000⟩,
   ⟨3, 3, "2025-01-05", 12000, 0⟩,
   ⟨4, 5, "2025-01-05", 0, 12000⟩,
   ⟨5, 5, "2025-01-10", 5000, 0⟩,
   ⟨6, 1, "2025-01-10", 0, 5000⟩,
   ⟨7, 1, "2025-01-15", 18000, 0⟩,
   ⟨8, 9, "2025-01-15", 0, 18000⟩,
   ⟨9, 2, "2025-01-20", 25000, 0⟩,
   ⟨10, 10, "2025-01-20", 0, 25000⟩,
   ⟨11, 11, "2025-01-25", 3000, 0⟩,
   ⟨12, 1, "2025-01-25", 0, 3000⟩,
   ⟨13, 12, "2025-01-28", 4000, 0⟩,
   ⟨14, 1, "2025-01-28", 0, 4000⟩,
   ⟨15, 4, "2025-01-30", 10000, 0⟩,
   ⟨16, 1, "2025-01-30", 0, 10000⟩,
   ⟨17, 8, "2025-01-31", 2000, 0⟩,
   ⟨18, 1, "2025-01-31", 0, 2000⟩]

/-- `clear_data_only`: `DELETE FROM journal_entries; DELETE FROM accounts;`. -/
def clear_data_only (_s : LedgerState) : LedgerState :=
  { accounts := [], journal_entries := [] }

/-- `seed_data`: runs the statements of `SQL_SEED_DATA` in one transaction —
both DELETEs followed by the two INSERTs, so the result does not depend on
the prior contents. -/
def seed_data (s : LedgerState) : LedgerState :=
  let cleared := clear_data_only s
  { cleared with accounts := seedAccounts, journal_entries := seedEntries }

/-- `init_db` creates the two tables if absent and then always calls `seed_data`;
on the state level it coincides with `seed_data`. -/
def init_db (s : LedgerState) : LedgerState :=
  seed_data s

/-- The empty ledger. -/
def emptyState : LedgerState :=
  { accounts := [], journal_entries := [] }

/-- The database contents right after `seed_data`. -/
def seededState : LedgerState :=
  seed_data emptyState

/-! ## apply_manual_entries -/

/-- One row of the manual-input `accounts_df` grid; any cell may be
missing/NaN (`pd.isna`), modelled as `none`. -/
structure AccountInput where
  account_id : Option Int
  account_name : Option String
  account_type : Option String
deriving DecidableEq, Repr

/-- One row of the manual-input `journal_df` grid. -/
structure EntryInput where
  entry_id : Option Int
  account_id : Option Int
  entry_date : Option String
  debit : Option Int
  credit : Option Int
deriving DecidableEq, Repr

/-- The row `apply_manual_entries` inserts for an `accounts_df` row, or `none`
when the row is skipped (`pd.isna` on account_id, account_name or account_type). -/
def keptAccount (r : AccountInput) : Option Account :=
  match r.account_id, r.account_name, r.account_type with
  | some i, some n, some t => some ⟨i, n, t⟩
  | _, _, _ => none

/-- The row `apply_manual_entries` inserts for a `journal_df` row, or `none`
when the row is skipped (`pd.isna` on entry_id or account_id). `debit`/`credit`
default to 0 and `entry_date` to "2025-01-01" when missing. -/
def keptEntry (r : EntryInput) : Option JournalEntry :=
  match r.entry_id, r.account_id with
  | some ei, some ai =>
      some ⟨ei, ai, r.entry_date.getD "2025-01-01", r.debit.getD 0, r.credit.getD 0⟩
  | _, _ => none

/-- One `INSERT INTO accounts` statement. `account_id INTEGER PRIMARY KEY`
enforces uniqueness; a duplicate id raises, which aborts the transaction.
The schema declares no other constraint on `accounts`. -/
def insertAccount (tbl : List Account) (a : Account) : Except String (List Account) :=
  if tbl.any fun b => b.account_id == a.account_id then
    .error "UNIQUE constraint failed: accounts.account_id"
  else
    .ok (tbl ++ [a])

/-- One `INSERT INTO journal_entries` statement. `entry_id INTEGER PRIMARY KEY`
enforces uniqueness. The schema declares NO foreign key on `account_id`
(and the SQLite connection never enables foreign-key enforcement), so an
entry referencing a missing account inserts without error. -/
def insertEntry (tbl : List JournalEntry) (e : JournalEntry) :
    Except String (List JournalEntry) :=
  if tbl.any fun f => f.entry_id == e.entry_id then
    .error "UNIQUE constraint failed: journal_entries.entry_id"
  else
    .ok (tbl ++ [e])

/-- The `for _, row in accounts_df.iterrows()` insertion loop. -/
def insertAccounts (tbl : List Account) : List AccountInput → Except String (List Account)
  | [] => .ok tbl
  | r :: rs =>
    match keptAccount r with
    | none => insertAccounts tbl rs
    | some a =>
      match insertAccount tbl a with
      | .error e => .error e
      | .ok tbl2 => insertAccounts tbl2 rs

/-- The `for _, row in journal_df.iterrows()` insertion loop. -/
def insertEntries (tbl : List JournalEntry) :
    List EntryInput → Except String (List JournalEntry)
  | [] => .ok tbl
  | r :: rs =>
    match keptEntry r with
    | none => insertEntries tbl rs
    | some e =>
      match insertEntry tbl e with
      | .error e => .error e
      | .ok tbl2 => insertEntries tbl2 rs

/-- `apply_manual_entries(accounts_df, journal_df)`: inside one transaction,
delete all journal entries and accounts, then insert the provided rows
(with the skip/default policy of `keptAccount`/`keptEntry`).
`.error` means the transaction raised and was rolled back. -/
def apply_manual_entries (s : LedgerState) (accounts_df : List AccountInput)
    (journal_df : List EntryInput) : Except String LedgerState :=
  let cleared := clear_data_only s
  match insertAccounts cleared.accounts accounts_df with
  | .error e => .error e
  | .ok accs =>
    match insertEntries cleared.journal_entries journal_df with
    | .error e => .error e
    | .ok ents => .ok { accounts := accs, journal_entries := ents }

/-- The database contents after a call to `apply_manual_entries`:
`ENGINE.begin()` commits the new state on success and rolls back to the
prior state when the transaction raises. -/
def replaceState (s : LedgerState) (accounts_df : List AccountInput)
    (journal_df : List EntryInput) : LedgerState :=
  match apply_manual_entries s accounts_df journal_df with
  | .ok t => t
  | .error _ => s

/-! ## Derived notions used to state the claims -/

/-- The balance of one account, `Σ debit − Σ credit` over exactly the entries
that reference its `account_id` (the spec's per-account AccountBalance). -/
def perAccountBalance (s : LedgerState) (a : Account) : Int :=
  ((s.journal_entries.filter fun j => j.account_id == a.account_id).map
    fun j => j.debit - j.credit).sum

/-- Total of the raw `debit` column of `journal_entries`. -/
def rawDebitTotal (s : LedgerState) : Int :=
  (s.journal_entries.map fun j => j.debit).sum

/-- Total of the raw `credit` column of `journal_entries`. -/
def rawCreditTotal (s : LedgerState) : Int :=
  (s.journal_entries.map fun j => j.credit).sum

/-- Sum of the `debit` column of a trial-balance (long) result. -/
def debitColumnSum (rows : List TBLongRow) : Int :=
  (rows.map fun r => r.debit).sum

/-- Sum of the `credit` column of a trial-balance (long) result. -/
def creditColumnSum (rows : List TBLongRow) : Int :=
  (rows.map fun r => r.credit).sum

/-- Sum of per-account balances over the Revenue accounts
(the spec's `Σ(Revenue balances)`). -/
def revenueBalancesSum (s : LedgerState) : Int :=
  ((s.accounts.filter fun a => a.account_type == "Revenue").map
    fun a => perAccountBalance s a).sum

/-- Sum of per-account balances over the Expense accounts. -/
def expenseBalancesSum (s : LedgerState) : Int :=
  ((s.accounts.filter fun a => a.account_type == "Expense").map
    fun a => perAccountBalance s a).sum

/-! ## Generic lemmas about list sums, grouping and the join -/

theorem sum_map_zero_fn {α : Type} (l : List α) :
    (l.map fun _ => (0 : Int)).sum = 0 := by
  induction l with
  | nil => rfl
  | cons x xs ih => simp [ih]

theorem sum_map_add {α : Type} (f g : α → Int) (l : List α) :
    (l.map fun x => f x + g x).sum = (l.map f).sum + (l.map g).sum := by
  induction l with
  | nil => rfl
  | cons x xs ih => simp [ih]; ring

theorem sum_map_sub {α : Type} (f g : α → Int) (l : List α) :
    (l.map fun x => f x - g x).sum = (l.map f).sum - (l.map g).sum := by
  induction l with
  | nil => rfl
  | cons x xs ih => simp [ih]; ring

theorem sum_map_neg {α : Type} (f : α → Int) (l : List α) :
    (l.map fun x => -f x).sum = -(l.map f).sum := by
  induction l with
  | nil => rfl
  | cons x xs ih => simp [ih]; ring

/-- `SUM` over a filtered list, rewritten as a sum of guarded terms over the
whole list. -/
theorem sum_filter_map {α : Type} (p : α → Bool) (f : α → Int) (l : List α) :
    ((l.filter p).map f).sum = (l.map fun x => if p x then f x else 0).sum := by
  induction l with
  | nil => rfl
  | cons x xs ih => by_cases h : p x <;> simp [List.filter_cons, h, ih]

theorem sum_map_ite_zero {κ : Type} [DecidableEq κ] (ks : List κ) (c : κ) (v : Int)
    (h : c ∉ ks) :
    (ks.map fun k => if c = k then v else 0).sum = 0 := by
  induction ks with
  | nil => rfl
  | cons k ks ih =>
    simp only [List.mem_cons, not_or] at h
    simp [h.1, ih h.2]

theorem sum_map_ite_single {κ : Type} [DecidableEq κ] (ks : List κ) (hnd : ks.Nodup)
    (c : κ) (hc : c ∈ ks) (v : Int) :
    (ks.map fun k => if c = k then v else 0).sum = v := by
  induction ks with
  | nil => cases hc
  | cons k ks ih =>
    rcases List.mem_cons.mp hc with h | h
    · subst h
      have hnot : c ∉ ks := (List.nodup_cons.mp hnd).1
      simp [sum_map_ite_zero ks c v hnot]
    · have hne : c ≠ k := fun hck => (List.nodup_cons.mp hnd).1 (hck ▸ h)
      simp [hne, ih (List.nodup_cons.mp hnd).2 h]

/-- Summing group `SUM`s over a duplicate-free, covering key list gives the
total sum. -/
theorem sum_fiberwise_aux {α κ : Type} [DecidableEq κ] (key : α → κ) (f : α → Int)
    (ks : List κ) (hnd : ks.Nodup) :
    ∀ l : List α, (∀ x ∈ l, key x ∈ ks) →
      (ks.map fun k => ((l.filter fun x => key x == k).map f).sum).sum = (l.map f).sum := by
  intro l
  induction l with
  | nil => intro _; simp
  | cons x xs ih =>
    intro hcov
    have hx : key x ∈ ks := hcov x (List.mem_cons_self x xs)
    have step : ∀ k, ((List.filter (fun y => key y == k) (x :: xs)).map f).sum
        = (if key x = k then f x else 0)
          + ((xs.filter fun y => key y == k).map f).sum := by
      intro k
      by_cases h : key x = k <;> simp [List.filter_cons, h]
    calc (ks.map fun k => ((List.filter (fun y => key y == k) (x :: xs)).map f).sum).sum
        = (ks.map fun k => (if key x = k then f x else 0)
            + ((xs.filter fun y => key y == k).map f).sum).sum := by
          exact congrArg List.sum (List.map_congr_left fun k _ => step k)
      _ = (ks.map fun k => if key x = k then f x else 0).sum
            + (ks.map fun k => ((xs.filter fun y => key y == k).map f).sum).sum :=
          sum_map_add _ _ ks
      _ = f x + (xs.map f).sum := by
          rw [sum_map_ite_single ks hnd (key x) hx,
            ih fun y hy => hcov y (List.mem_cons_of_mem x hy)]
      _ = ((x :: xs).map f).sum := by simp

/-- GROUP BY and SUM per group, then adding the groups, recovers the plain SUM. -/
theorem sum_groupSum {α κ : Type} [DecidableEq κ] (key : α → κ) (f : α → Int)
    (l : List α) :
    ((groupKeys key l).map fun k => groupSum key f l k).sum = (l.map f).sum := by
  apply sum_fiberwise_aux key f _ (List.nodup_dedup _) l
  intro x hx
  exact List.mem_dedup.mpr (List.mem_map_of_mem key hx)

theorem mem_groupKeys {α κ : Type} [DecidableEq κ] {key : α → κ} {l : List α} {k : κ} :
    k ∈ groupKeys key l ↔ ∃ x ∈ l, key x = k := by
  simp [groupKeys, List.mem_dedup, List.mem_map]

theorem mem_fiber {α κ : Type} [DecidableEq κ] {key : α → κ} {l : List α} {k : κ}
    {x : α} : x ∈ fiber key l k ↔ x ∈ l ∧ key x = k := by
  simp [fiber, List.mem_filter]

/-- Exchanging two nested list sums. -/
theorem list_sum_comm {α β : Type} (l1 : List α) (l2 : List β) (h : α → β → Int) :
    (l1.map fun x => (l2.map fun y => h x y).sum).sum
      = (l2.map fun y => (l1.map fun x => h x y).sum).sum := by
  induction l1 with
  | nil => simp [sum_map_zero_fn]
  | cons x xs ih => simp [sum_map_add, ih]

theorem sum_flatMap_map {α β : Type} (l : List α) (g : α → List β) (F : β → Int) :
    ((l.flatMap g).map F).sum = (l.map fun a => ((g a).map F).sum).sum := by
  induction l with
  | nil => rfl
  | cons x xs ih => simp [List.flatMap_cons, ih]

theorem mem_joinRows {s : LedgerState} {r : JournalEntry × Account} :
    r ∈ joinRows s ↔
      r.1 ∈ s.journal_entries ∧ r.2 ∈ s.accounts ∧ r.2.account_id = r.1.account_id := by
  rcases r with ⟨j, a⟩
  simp only [joinRows, List.mem_flatMap, List.mem_map, List.mem_filter, beq_iff_eq]
  constructor
  · rintro ⟨j', hj', a', ⟨ha', hid⟩, heq⟩
    cases heq
    exact ⟨hj', ha', hid⟩
  · rintro ⟨hj, ha, hid⟩
    exact ⟨j, hj, a, ⟨ha, hid⟩, rfl⟩

/-- Reindexing the sum over the join as a double sum over the two tables. -/
theorem sum_joinRows_eq (s : LedgerState) (F : JournalEntry × Account → Int) :
    ((joinRows s).map F).sum
      = (s.journal_entries.map fun j =>
          (s.accounts.map fun a =>
            if a.account_id = j.account_id then F (j, a) else 0).sum).sum := by
  unfold joinRows
  rw [sum_flatMap_map]
  refine congrArg List.sum (List.map_congr_left fun j _ => ?_)
  rw [List.map_map, sum_filter_map]
  refine congrArg List.sum (List.map_congr_left fun a _ => ?_)
  by_cases h : a.account_id = j.account_id <;> simp [h]

/-- Summing an entry-only function over the join reduces to summing over
`journal_entries` when every entry matches exactly one account row. -/
theorem sum_joinRows_fst (s : LedgerState) (f : JournalEntry → Int)
    (h : ∀ j ∈ s.journal_entries,
      (s.accounts.filter fun a => a.account_id == j.account_id).length = 1) :
    ((joinRows s).map fun r => f r.1).sum = (s.journal_entries.map f).sum := by
  unfold joinRows
  rw [sum_flatMap_map]
  refine congrArg List.sum (List.map_congr_left fun j hj => ?_)
  rcases List.length_eq_one.mp (h j hj) with ⟨a, ha⟩
  rw [ha]
  simp

/-- Under distinct `account_id`s (the PRIMARY KEY), an entry that references
an existing account matches exactly one account row. -/
theorem length_filter_account_eq_one (l : List Account) (v : Int)
    (hnd : (l.map fun a => a.account_id).Nodup) (hex : ∃ a ∈ l, a.account_id = v) :
    (l.filter fun a => a.account_id == v).length = 1 := by
  induction l with
  | nil => simp at hex
  | cons b l ih =>
    simp only [List.map_cons, List.nodup_cons, List.mem_map] at hnd
    by_cases hb : b.account_id = v
    · have hnone : ∀ a ∈ l, ¬(a.account_id == v) = true := by
        intro a ha hav
        exact hnd.1 ⟨a, ha, by rw [beq_iff_eq] at hav; rw [hav, hb]⟩
      rw [List.filter_cons_of_pos (by simpa using hb),
        List.filter_eq_nil_iff.mpr hnone]
      rfl
    · rcases hex with ⟨a, ha, hav⟩
      rcases List.mem_cons.mp ha with rfl | ha'
      · exact absurd hav hb
      · rw [List.filter_cons_of_neg (by simpa using hb)]
        exact ih hnd.2 ⟨a, ha', hav⟩

/-! ## Shape lemmas for the two aggregate-only queries -/

theorem get_bs_totals_eq (s : LedgerState) :
    get_bs_totals s =
      if bsKeys s = [] then
        [{ total_assets := none, total_liabilities := none, total_equity := none
           balance_difference := none }]
      else
        [{ total_assets := some (bsAssetsTotal s)
           total_liabilities := some (bsLiabilitiesTotal s)
           total_equity := some (bsEquityTotal s)
           balance_difference :=
             some (bsAssetsTotal s - (bsLiabilitiesTotal s + bsEquityTotal s)) }] :=
  rfl

theorem get_income_statement_summary_eq (s : LedgerState) :
    get_income_statement_summary s =
      if ieKeys s = [] then
        [{ total_revenue := none, total_expense := none, net_income := none }]
      else
        [{ total_revenue := some (isRevenueTotal s)
           total_expense := some (isExpenseTotal s)
           net_income := some (isRevenueTotal s - isExpenseTotal s) }] :=
  rfl

/-! ## Claims -/

/-- C8: `seed_data` is idempotent with respect to all observable query results:
for every prior store contents, running seed twice leaves the store in the
same state as running it once, so every aggregation operation returns
identical output after `seed(); seed()` as after a single `seed()`. -/
theorem C8_seed_idempotent (s : LedgerState) :
    seed_data (seed_data s) = seed_data s
    ∧ get_trial_balance_long (seed_data (seed_data s)) = get_trial_balance_long (seed_data s)
    ∧ get_trial_balance_short (seed_data (seed_data s)) = get_trial_balance_short (seed_data s)
    ∧ get_account_balances (seed_data (seed_data s)) = get_account_balances (seed_data s)
    ∧ get_balance_sheet_detail_totals (seed_data (seed_data s))
        = get_balance_sheet_detail_totals (seed_data s)
    ∧ get_income_statement_summary (seed_data (seed_data s))
        = get_income_statement_summary (seed_data s) :=
  ⟨rfl, rfl, rfl, rfl, rfl, rfl⟩

/-- C1, counterexample: on the empty ledger (zero Revenue/Expense accounts,
e.g. right after `replace` with empty inputs) `get_income_statement_summary`
returns ONE row, whose three fields are NULL — not an empty, zero-row result
as the claim states. -/
theorem C1_counterexample :
    get_income_statement_summary emptyState
      = [{ total_revenue := none, total_expense := none, net_income := none }]
    ∧ get_income_statement_summary emptyState ≠ [] := by
  exact ⟨rfl, by decide⟩

/-- C1, amended: for every ledger with zero Revenue and zero Expense accounts,
`get_income_statement_summary` returns a single row whose `total_revenue`,
`total_expense` and `net_income` are all NULL (the SQL aggregates over the
empty `ie` CTE), rather than an empty result or a zeroed row. -/
theorem C1_amended (s : LedgerState)
    (h : ∀ a ∈ s.accounts, a.account_type ≠ "Revenue" ∧ a.account_type ≠ "Expense") :
    get_income_statement_summary s
      = [{ total_revenue := none, total_expense := none, net_income := none }] := by
  have hie : ieJoin s = [] := by
    refine List.filter_eq_nil_iff.mpr fun r hr => ?_
    rcases h r.2 (mem_joinRows.mp hr).2.1 with ⟨h1, h2⟩
    simp [h1, h2]
  have hks : ieKeys s = [] := by
    rw [ieKeys, hie]
    rfl
  rw [get_income_statement_summary_eq, if_pos hks]

/-- C1, witness: the amended statement applied to the empty ledger. -/
theorem C1_witness :
    (∀ a ∈ emptyState.accounts, a.account_type ≠ "Revenue" ∧ a.account_type ≠ "Expense")
    ∧ get_income_statement_summary emptyState
        = [{ total_revenue := none, total_expense := none, net_income := none }] :=
  ⟨(fun _ h => absurd h (List.not_mem_nil _)), C1_amended emptyState (fun _ h => absurd h (List.not_mem_nil _))⟩

/-- C2, counterexample: with zero qualifying (Asset/Liability/Equity) accounts
— here the empty ledger — the single totals row of `SQL_BS_TOTALS` has all
four fields NULL, not zero, because `SUM` over zero rows is NULL in SQL. -/
theorem C2_counterexample :
    get_bs_totals emptyState
      = [{ total_assets := none, total_liabilities := none, total_equity := none
           balance_difference := none }]
    ∧ get_bs_totals emptyState
        ≠ [{ total_assets := some 0, total_liabilities := some 0, total_equity := some 0
             balance_difference := some 0 }] := by
  exact ⟨rfl, by decide⟩

/-- C2, amended: with zero qualifying accounts the totals query still returns
exactly one row, but its four fields are NULL rather than zero; when at least
one Asset/Liability/Equity account has entries, the row carries the three
sums, and the total of any type absent from the qualifying join is (non-NULL)
zero rather than a failure. -/
theorem C2_amended :
    (∀ s : LedgerState,
      (∀ a ∈ s.accounts, a.account_type ≠ "Asset" ∧ a.account_type ≠ "Liability"
          ∧ a.account_type ≠ "Equity") →
      get_bs_totals s
        = [{ total_assets := none, total_liabilities := none, total_equity := none
             balance_difference := none }])
    ∧ (∀ s : LedgerState, bsKeys s ≠ [] →
        get_bs_totals s
          = [{ total_assets := some (bsAssetsTotal s)
               total_liabilities := some (bsLiabilitiesTotal s)
               total_equity := some (bsEquityTotal s)
               balance_difference :=
                 some (bsAssetsTotal s - (bsLiabilitiesTotal s + bsEquityTotal s)) }]
        ∧ ((∀ r ∈ bsJoin s, r.2.account_type ≠ "Asset") → bsAssetsTotal s = 0)
        ∧ ((∀ r ∈ bsJoin s, r.2.account_type ≠ "Liability") → bsLiabilitiesTotal s = 0)
        ∧ ((∀ r ∈ bsJoin s, r.2.account_type ≠ "Equity") → bsEquityTotal s = 0)) := by
  constructor
  · intro s h
    have hbs : bsJoin s = [] := by
      refine List.filter_eq_nil_iff.mpr fun r hr => ?_
      rcases h r.2 (mem_joinRows.mp hr).2.1 with ⟨h1, h2, h3⟩
      simp [h1, h2, h3]
    have hks : bsKeys s = [] := by
      rw [bsKeys, hbs]
      rfl
    rw [get_bs_totals_eq, if_pos hks]
  · intro s hks
    refine ⟨by rw [get_bs_totals_eq, if_neg hks], ?_, ?_, ?_⟩
    all_goals
      intro h
      refine Eq.trans (congrArg List.sum (List.map_congr_left fun k hk => ?_))
        (sum_map_zero_fn _)
      rcases mem_groupKeys.mp hk with ⟨r, hr, hkey⟩
      have htype : r.2.account_type ≠ _ := h r hr
      rw [← hkey]
      simp [tbLongKey, htype]

/-- A one-Asset-account ledger used to witness the amended C2. -/
def wC2 : LedgerState :=
  { accounts := [⟨1, "Cash", "Asset"⟩]
    journal_entries := [⟨1, 1, "2025-01-01", 5, 0⟩] }

/-- C2, witness: the amended statement applied to the empty ledger (first
part) and to a one-Asset-account ledger (second part: the absent Liability
and Equity totals are zero). -/
theorem C2_witness :
    get_bs_totals emptyState
      = [{ total_assets := none, total_liabilities := none, total_equity := none
           balance_difference := none }]
    ∧ bsLiabilitiesTotal wC2 = 0
    ∧ bsEquityTotal wC2 = 0 := by
  refine ⟨C2_amended.1 emptyState (fun _ h => absurd h (List.not_mem_nil _)), ?_, ?_⟩
  · exact (C2_amended.2 wC2 (by decide)).2.2.1 (by decide)
  · exact (C2_amended.2 wC2 (by decide)).2.2.2 (by decide)

/-! ## The insertion loops of apply_manual_entries -/

theorem insertAccounts_eq_ok (accs : List AccountInput) :
    ∀ tbl : List Account,
      ((tbl ++ accs.filterMap keptAccount).map fun a => a.account_id).Nodup →
      insertAccounts tbl accs = .ok (tbl ++ accs.filterMap keptAccount) := by
  induction accs with
  | nil => intro tbl _; simp [insertAccounts]
  | cons r rs ih =>
    intro tbl h
    cases hk : keptAccount r with
    | none =>
      have := ih tbl (by simpa [List.filterMap_cons, hk] using h)
      simpa [insertAccounts, hk, List.filterMap_cons] using this
    | some a =>
      have h' : ((tbl ++ a :: rs.filterMap keptAccount).map fun a => a.account_id).Nodup := by
        simpa [List.filterMap_cons, hk] using h
      have hnot : a.account_id ∉ tbl.map fun b => b.account_id := by
        rw [List.map_append] at h'
        intro hmem
        exact (List.nodup_append.mp h').2.2 hmem (by simp)
      have hany : (tbl.any fun b => b.account_id == a.account_id) = false := by
        refine List.any_eq_false.mpr fun b hb => ?_
        simp only [beq_iff_eq]
        intro hbe
        exact hnot (hbe ▸ List.mem_map_of_mem _ hb)
      have hrest := ih (tbl ++ [a]) (by simpa [List.append_assoc] using h')
      simp only [insertAccounts, hk, insertAccount, hany, Bool.false_eq_true, if_false,
        hrest, List.filterMap_cons]
      simp [List.append_assoc]

theorem insertEntries_eq_ok (ents : List EntryInput) :
    ∀ tbl : List JournalEntry,
      ((tbl ++ ents.filterMap keptEntry).map fun e => e.entry_id).Nodup →
      insertEntries tbl ents = .ok (tbl ++ ents.filterMap keptEntry) := by
  induction ents with
  | nil => intro tbl _; simp [insertEntries]
  | cons r rs ih =>
    intro tbl h
    cases hk : keptEntry r with
    | none =>
      have := ih tbl (by simpa [List.filterMap_cons, hk] using h)
      simpa [insertEntries, hk, List.filterMap_cons] using this
    | some e =>
      have h' : ((tbl ++ e :: rs.filterMap keptEntry).map fun e => e.entry_id).Nodup := by
        simpa [List.filterMap_cons, hk] using h
      have hnot : e.entry_id ∉ tbl.map fun f => f.entry_id := by
        rw [List.map_append] at h'
        intro hmem
        exact (List.nodup_append.mp h').2.2 hmem (by simp)
      have hany : (tbl.any fun f => f.entry_id == e.entry_id) = false := by
        refine List.any_eq_false.mpr fun f hf => ?_
        simp only [beq_iff_eq]
        intro hfe
        exact hnot (hfe ▸ List.mem_map_of_mem _ hf)
      have hrest := ih (tbl ++ [e]) (by simpa [List.append_assoc] using h')
      simp only [insertEntries, hk, insertEntry, hany, Bool.false_eq_true, if_false,
        hrest, List.filterMap_cons]
      simp [List.append_assoc]

/-- When the kept rows carry duplicate-free primary keys, the whole
`apply_manual_entries` transaction succeeds and commits exactly the kept rows. -/
theorem apply_manual_entries_eq_ok (s : LedgerState) (accs : List AccountInput)
    (ents : List EntryInput)
    (h1 : ((accs.filterMap keptAccount).map fun a => a.account_id).Nodup)
    (h2 : ((ents.filterMap keptEntry).map fun e => e.entry_id).Nodup) :
    apply_manual_entries s accs ents
      = .ok { accounts := accs.filterMap keptAccount
              journal_entries := ents.filterMap keptEntry } := by
  have hA := insertAccounts_eq_ok accs [] (by simpa using h1)
  have hE := insertEntries_eq_ok ents [] (by simpa using h2)
  simp only [List.nil_append] at hA hE
  simp [apply_manual_entries, clear_data_only, hA, hE]

/-- The manual journal grid of the C3 scenario: one complete row referencing
`account_id` 1 while no account at all is inserted. -/
def c3Input : List EntryInput :=
  [⟨some 1, some 1, some "2025-01-01", some 5, some 0⟩]

def c3Entry : JournalEntry :=
  ⟨1, 1, "2025-01-01", 5, 0⟩

/-- C3, counterexample: `apply_manual_entries` on the seeded ledger with no
accounts and one non-skipped entry referencing the (now non-existent)
account 1 SUCCEEDS and commits — it does not fail, and the store is not left
in its pre-call state, contrary to the claim. The schema of `init_db`
declares no FOREIGN KEY and SQLite does not enforce one. -/
theorem C3_counterexample :
    apply_manual_entries seededState [] c3Input
      = .ok { accounts := [], journal_entries := [c3Entry] }
    ∧ replaceState seededState [] c3Input ≠ seededState
    ∧ keptEntry ⟨some 1, some 1, some "2025-01-01", some 5, some 0⟩ = some c3Entry
    ∧ (∀ a ∈ ([] : List AccountInput).filterMap keptAccount, a.account_id ≠ 1) := by
  refine ⟨rfl, by decide, rfl, ?_⟩
  intro a ha
  exact absurd ha (List.not_mem_nil a)

/-- C3, amended: `replace` given a non-skipped journal entry whose
`account_id` does not occur among the inserted accounts does NOT fail:
with duplicate-free kept primary keys the transaction commits exactly the
kept rows (the `init_db` schema declares no foreign key), and the dangling
entry, though stored, joins no account row and hence appears in no
aggregation result. -/
theorem C3_amended (s : LedgerState) (accs : List AccountInput) (ents : List EntryInput)
    (h1 : ((accs.filterMap keptAccount).map fun a => a.account_id).Nodup)
    (h2 : ((ents.filterMap keptEntry).map fun e => e.entry_id).Nodup) :
    apply_manual_entries s accs ents
      = .ok { accounts := accs.filterMap keptAccount
              journal_entries := ents.filterMap keptEntry }
    ∧ ∀ e ∈ ents.filterMap keptEntry,
        (∀ a ∈ accs.filterMap keptAccount, a.account_id ≠ e.account_id) →
        ∀ r ∈ joinRows (replaceState s accs ents), r.1 ≠ e := by
  have hok := apply_manual_entries_eq_ok s accs ents h1 h2
  refine ⟨hok, ?_⟩
  intro e _ hnoacc r hr hre
  have hrep : replaceState s accs ents
      = { accounts := accs.filterMap keptAccount
          journal_entries := ents.filterMap keptEntry } := by
    rw [replaceState, hok]
  rw [hrep] at hr
  rcases mem_joinRows.mp hr with ⟨_, h_acc, h_id⟩
  exact hnoacc r.2 h_acc (by rw [h_id, hre])

/-- C3, witness: the amended statement at the concrete C3 scenario. -/
theorem C3_witness :
    apply_manual_entries seededState [] c3Input
      = .ok { accounts := [], journal_entries := [c3Entry] }
    ∧ ∀ r ∈ joinRows (replaceState seededState [] c3Input), r.1 ≠ c3Entry := by
  have h := C3_amended seededState [] c3Input (by decide) (by decide)
  refine ⟨h.1.trans (congrArg Except.ok (by decide)), ?_⟩
  intro r hr
  exact h.2 c3Entry (by decide) (by decide) r hr

/-- C7: an accounts row is inserted by `replace` iff its `account_id`,
`account_name` and `account_type` are all present; a journal row is inserted
iff its `entry_id` and `account_id` are both present, with `debit`/`credit`
defaulting to 0 and `entry_date` defaulting to "2025-01-01" when absent:
the committed state is exactly the `keptAccount`/`keptEntry` image of the
input grids (stated for inputs whose kept rows carry duplicate-free primary
keys, as the PRIMARY KEY columns otherwise abort the transaction). -/
theorem C7_replace_policy (s : LedgerState) (accs : List AccountInput)
    (ents : List EntryInput)
    (h1 : ((accs.filterMap keptAccount).map fun a => a.account_id).Nodup)
    (h2 : ((ents.filterMap keptEntry).map fun e => e.entry_id).Nodup) :
    (∃ t, apply_manual_entries s accs ents = .ok t
      ∧ t.accounts = accs.filterMap keptAccount
      ∧ t.journal_entries = ents.filterMap keptEntry)
    ∧ (∀ r : AccountInput, (keptAccount r).isSome
        ↔ (r.account_id ≠ none ∧ r.account_name ≠ none ∧ r.account_type ≠ none))
    ∧ (∀ r : EntryInput, (keptEntry r).isSome
        ↔ (r.entry_id ≠ none ∧ r.account_id ≠ none))
    ∧ (∀ (r : EntryInput) (e : JournalEntry), keptEntry r = some e →
        e.debit = r.debit.getD 0 ∧ e.credit = r.credit.getD 0
          ∧ e.entry_date = r.entry_date.getD "2025-01-01")
    ∧ (∀ (r : AccountInput) (a : Account), keptAccount r = some a →
        r.account_id = some a.account_id ∧ r.account_name = some a.account_name
          ∧ r.account_type = some a.account_type) := by
  refine ⟨⟨_, apply_manual_entries_eq_ok s accs ents h1 h2, rfl, rfl⟩, ?_, ?_, ?_, ?_⟩
  · rintro ⟨i, n, t⟩
    cases i <;> cases n <;> cases t <;> simp [keptAccount]
  · rintro ⟨ei, ai, d, db, cr⟩
    cases ei <;> cases ai <;> simp [keptEntry]
  · rintro ⟨ei, ai, d, db, cr⟩ e h
    cases ei <;> cases ai <;> simp [keptEntry] at h <;> simp [← h]
  · rintro ⟨i, n, t⟩ a h
    cases i <;> cases n <;> cases t <;> simp [keptAccount] at h <;> simp [← h]

/-- The accounts grid of the spec's null-name scenario: the middle row has a
missing `account_name`. -/
def c7Accs : List AccountInput :=
  [⟨some 1, some "Cash", some "Asset"⟩,
   ⟨some 2, none, some "Asset"⟩,
   ⟨some 3, some "Accounts Payable", some "Liability"⟩]

/-- C7, witness: replacing with an accounts grid containing one null-name row
omits exactly that row and inserts all others. -/
theorem C7_witness :
    apply_manual_entries emptyState c7Accs []
      = .ok { accounts := [⟨1, "Cash", "Asset"⟩, ⟨3, "Accounts Payable", "Liability"⟩]
              journal_entries := [] } := by
  obtain ⟨⟨t, hok, ha, he⟩, -⟩ :=
    C7_replace_policy emptyState c7Accs [] (by decide) (by decide)
  rw [hok]
  rcases t with ⟨ta, te⟩
  simp only at ha he
  rw [ha, he]
  exact congrArg Except.ok (by decide)

/-- Two DISTINCT accounts (ids 1 and 2) that share `account_name` "X" and
`account_type` "Asset", each with one journal entry (debits 10 and 5). -/
def sC4 : LedgerState :=
  { accounts := [⟨1, "X", "Asset"⟩, ⟨2, "X", "Asset"⟩]
    journal_entries := [⟨1, 1, "2025-01-01", 10, 0⟩, ⟨2, 2, "2025-01-01", 5, 0⟩] }

/-- C4, counterexample: in `sC4` account 1 has per-account balance 10, yet the
only output row of `trial_balance_long` bearing its name has `debit` 15 —
the two distinct accounts were merged because `SQL_TRIAL_BALANCE_LONG` groups
by `(account_name, account_type)`, so the row is not
`debit = max(balance, 0)` for that account's own balance. -/
theorem C4_counterexample :
    (⟨1, "X", "Asset"⟩ : Account) ∈ sC4.accounts
    ∧ perAccountBalance sC4 ⟨1, "X", "Asset"⟩ = 10
    ∧ get_trial_balance_long sC4
        = [{ section_col := "Assets", account_name := "X", debit := 15, credit := 0 }]
    ∧ ¬ ∃ row ∈ get_trial_balance_long sC4,
        row.account_name = "X"
          ∧ row.debit = max (perAccountBalance sC4 ⟨1, "X", "Asset"⟩) 0
          ∧ row.credit = max (-perAccountBalance sC4 ⟨1, "X", "Asset"⟩) 0 := by
  decide

/-- C4, amended: for every `(account_name, account_type)` GROUP BY key of
`trial_balance_long`, letting balance = Σdebit − Σcredit over the joined
entries of ALL accounts sharing that name and type, the emitted row has
`debit = max(balance, 0)` and `credit = max(−balance, 0)`; hence at most one
of the two is nonzero, and a group with balance −B (B > 0) yields the row
`debit = 0, credit = B`. (The split is per name/type group, not per
account id: distinct accounts sharing both are combined first.) -/
theorem C4_amended (s : LedgerState) (k : String × String) (hk : k ∈ tbLongKeys s) :
    mkTBLongRow (joinRows s) k ∈ get_trial_balance_long s
    ∧ (mkTBLongRow (joinRows s) k).debit = max (tbLongBalance s k) 0
    ∧ (mkTBLongRow (joinRows s) k).credit = max (-tbLongBalance s k) 0
    ∧ ((mkTBLongRow (joinRows s) k).debit = 0 ∨ (mkTBLongRow (joinRows s) k).credit = 0)
    ∧ ∀ B : Int, 0 < B → tbLongBalance s k = -B →
        (mkTBLongRow (joinRows s) k).debit = 0
          ∧ (mkTBLongRow (joinRows s) k).credit = B := by
  have hdeb : (mkTBLongRow (joinRows s) k).debit = max (tbLongBalance s k) 0 := by
    show (if tbLongBalance s k >= 0 then tbLongBalance s k else 0)
        = max (tbLongBalance s k) 0
    rcases le_or_lt 0 (tbLongBalance s k) with h | h
    · rw [if_pos h, max_eq_left h]
    · rw [if_neg (by omega), max_eq_right (le_of_lt h)]
  have hcred : (mkTBLongRow (joinRows s) k).credit = max (-tbLongBalance s k) 0 := by
    show (if tbLongBalance s k < 0 then -tbLongBalance s k else 0)
        = max (-tbLongBalance s k) 0
    rcases le_or_lt 0 (tbLongBalance s k) with h | h
    · rw [if_neg (by omega), max_eq_right (by omega)]
    · rw [if_pos h, max_eq_left (by omega)]
  refine ⟨?_, hdeb, hcred, ?_, ?_⟩
  · exact List.mem_map_of_mem _ ((List.mem_insertionSort _).mpr hk)
  · rcases le_or_lt 0 (tbLongBalance s k) with h | h
    · right
      rw [hcred, max_eq_right (by omega)]
    · left
      rw [hdeb, max_eq_right (le_of_lt h)]
  · intro B hB hbal
    rw [hdeb, hcred, hbal]
    constructor
    · rw [max_eq_right (by omega)]
    · rw [neg_neg, max_eq_left (le_of_lt hB)]

/-- A one-account Liability ledger with raw balance −12000 (the spec's
credit-normal example). -/
def wC4 : LedgerState :=
  { accounts := [⟨1, "Notes Payable", "Liability"⟩]
    journal_entries := [⟨1, 1, "2025-01-01", 0, 12000⟩] }

/-- C4, witness: the amended statement applied to the −12000 Liability ledger:
the emitted row is `debit = 0, credit = 12000`. -/
theorem C4_witness :
    ("Notes Payable", "Liability") ∈ tbLongKeys wC4
    ∧ (mkTBLongRow (joinRows wC4) ("Notes Payable", "Liability")).debit = 0
    ∧ (mkTBLongRow (joinRows wC4) ("Notes Payable", "Liability")).credit = 12000 := by
  have h := C4_amended wC4 ("Notes Payable", "Liability") (by decide)
  exact ⟨by decide, h.2.2.2.2 12000 (by decide) (by decide)⟩

/-- C9, counterexample: `sC4` holds two distinct accounts (different
`account_id`s, same name and type), both with journal entries, yet
`trial_balance_long` outputs a single row: distinct accounts ARE merged when
they share `account_name` and `account_type`, because the SQL groups by
those two columns only. -/
theorem C9_counterexample :
    sC4.accounts = [⟨1, "X", "Asset"⟩, ⟨2, "X", "Asset"⟩]
    ∧ (⟨1, "X", "Asset"⟩ : Account) ≠ ⟨2, "X", "Asset"⟩
    ∧ (∀ a ∈ sC4.accounts, ∃ j ∈ sC4.journal_entries, j.account_id = a.account_id)
    ∧ (get_trial_balance_long sC4).length = 1 := by
  decide

/-- C9, amended: `trial_balance_long` outputs exactly one row per distinct
`(account_name, account_type)` pair among the joined entries — NOT per
distinct account: accounts sharing both name and type are combined into one
row. `trial_balance_short`, whose GROUP BY includes `account_id`, has exactly
one row per distinct `(account_id, account_name, account_type)` triple. -/
theorem C9_amended (s : LedgerState) :
    (tbLongKeys s).Nodup
    ∧ (get_trial_balance_long s).length = (tbLongKeys s).length
    ∧ (∀ k : String × String, k ∈ tbLongKeys s ↔ ∃ r ∈ joinRows s, tbLongKey r = k)
    ∧ (tbShortKeys s).Nodup
    ∧ (get_trial_balance_short s).length = (tbShortKeys s).length
    ∧ (∀ k : Int × String × String, k ∈ tbShortKeys s ↔ ∃ r ∈ joinRows s, abKey r = k) := by
  refine ⟨List.nodup_dedup _, ?_, fun k => mem_groupKeys, List.nodup_dedup _, ?_,
    fun k => mem_groupKeys⟩
  · simp [get_trial_balance_long, trial_balance_long_rows, tbLongKeys]
  · simp [get_trial_balance_short, trial_balance_short_rows, tbShortKeys]

/-! ## Accounts without entries are invisible -/

theorem filter_erase_of_neg {α : Type} [DecidableEq α] (p : α → Bool) (l : List α)
    (x : α) (hx : p x = false) : (l.erase x).filter p = l.filter p := by
  induction l with
  | nil => rfl
  | cons b l ih =>
    by_cases hb : b = x
    · subst hb
      rw [List.erase_cons_head, List.filter_cons_of_neg (by simp [hx])]
    · rw [List.erase_cons_tail (by simp only [beq_iff_eq]; simpa using hb)]
      by_cases hpb : p b
      · rw [List.filter_cons_of_pos hpb, List.filter_cons_of_pos hpb, ih]
      · rw [List.filter_cons_of_neg (by simpa using hpb),
          List.filter_cons_of_neg (by simpa using hpb), ih]

theorem flatMap_congr_left {α β : Type} (l : List α) (f g : α → List β)
    (h : ∀ x ∈ l, f x = g x) : l.flatMap f = l.flatMap g := by
  induction l with
  | nil => rfl
  | cons x xs ih =>
    rw [List.flatMap_cons, List.flatMap_cons, h x (List.mem_cons_self x xs),
      ih fun y hy => h y (List.mem_cons_of_mem x hy)]

/-- Erasing an account that no journal entry references leaves the join — and
hence every query — unchanged. -/
theorem joinRows_erase (s : LedgerState) (a : Account)
    (hno : ∀ j ∈ s.journal_entries, j.account_id ≠ a.account_id) :
    joinRows { accounts := s.accounts.erase a, journal_entries := s.journal_entries }
      = joinRows s := by
  unfold joinRows
  refine flatMap_congr_left _ _ _ fun j hj => ?_
  rw [filter_erase_of_neg _ _ _
    (by rw [beq_eq_false_iff_ne]; exact fun h => hno j hj h.symm)]

/-- C10: an account with zero journal entries is absent from every
aggregation output: its `account_id` labels no row of `account_balances` or
`trial_balance_short`, and removing the account from `accounts` changes none
of the five query results (so it also produces no name-keyed row and
contributes nothing to any total). -/
theorem C10_no_entries_invisible (s : LedgerState) (a : Account) (ha : a ∈ s.accounts)
    (hno : ∀ j ∈ s.journal_entries, j.account_id ≠ a.account_id) :
    (∀ row ∈ get_account_balances s, row.account_id ≠ a.account_id)
    ∧ (∀ row ∈ get_trial_balance_short s, row.account_id ≠ a.account_id)
    ∧ get_account_balances
        { accounts := s.accounts.erase a, journal_entries := s.journal_entries }
        = get_account_balances s
    ∧ get_trial_balance_long
        { accounts := s.accounts.erase a, journal_entries := s.journal_entries }
        = get_trial_balance_long s
    ∧ get_trial_balance_short
        { accounts := s.accounts.erase a, journal_entries := s.journal_entries }
        = get_trial_balance_short s
    ∧ get_balance_sheet_detail_totals
        { accounts := s.accounts.erase a, journal_entries := s.journal_entries }
        = get_balance_sheet_detail_totals s
    ∧ get_income_statement_summary
        { accounts := s.accounts.erase a, journal_entries := s.journal_entries }
        = get_income_statement_summary s := by
  have hj := joinRows_erase s a hno
  refine ⟨?_, ?_, ?_, ?_, ?_, ?_, ?_⟩
  · intro row hrow
    rcases List.mem_map.mp hrow with ⟨k, hk, rfl⟩
    rcases mem_groupKeys.mp ((List.mem_insertionSort _).mp hk) with ⟨r, hr, hkey⟩
    rcases mem_joinRows.mp hr with ⟨hje, _, hid⟩
    subst hkey
    exact fun hcontra => hno r.1 hje (by rw [← hid]; exact hcontra)
  · intro row hrow
    rcases List.mem_map.mp hrow with ⟨k, hk, rfl⟩
    rcases mem_groupKeys.mp ((List.mem_insertionSort _).mp hk) with ⟨r, hr, hkey⟩
    rcases mem_joinRows.mp hr with ⟨hje, _, hid⟩
    subst hkey
    exact fun hcontra => hno r.1 hje (by rw [← hid]; exact hcontra)
  · rw [get_account_balances, get_account_balances, hj]
  · rw [get_trial_balance_long, get_trial_balance_long, hj]
  · rw [get_trial_balance_short, get_trial_balance_short, hj]
  · rw [get_balance_sheet_detail_totals, get_balance_sheet_detail_totals,
      get_bs_detail, get_bs_detail, get_bs_totals, get_bs_totals, hj]
  · rw [get_income_statement_summary, get_income_statement_summary, hj]

/-- A ledger in which account 2 ("Unused") has no journal entries. -/
def wC10 : LedgerState :=
  { accounts := [⟨1, "Cash", "Asset"⟩, ⟨2, "Unused", "Equity"⟩]
    journal_entries := [⟨1, 1, "2025-01-01", 5, 0⟩] }

/-- C10, witness: the statement applied to `wC10` and its entry-less
account 2. -/
theorem C10_witness :
    (⟨2, "Unused", "Equity"⟩ : Account) ∈ wC10.accounts
    ∧ (∀ row ∈ get_account_balances wC10, row.account_id ≠ 2)
    ∧ get_trial_balance_long
        { accounts := wC10.accounts.erase ⟨2, "Unused", "Equity"⟩
          journal_entries := wC10.journal_entries }
        = get_trial_balance_long wC10 := by
  have h := C10_no_entries_invisible wC10 ⟨2, "Unused", "Equity"⟩ (by decide) (by decide)
  exact ⟨by decide, h.1, h.2.2.2.1⟩

/-! ## Trial balance column sums -/

/-- The difference of the two columns of `trial_balance_long` equals the sum
of `debit − credit` over the joined rows: the per-row debit/credit split and
the GROUP BY both cancel out. -/
theorem tb_long_column_sums (s : LedgerState) :
    debitColumnSum (get_trial_balance_long s) - creditColumnSum (get_trial_balance_long s)
      = ((joinRows s).map fun r => r.1.debit - r.1.credit).sum := by
  unfold debitColumnSum creditColumnSum get_trial_balance_long trial_balance_long_rows
  rw [List.map_map, List.map_map, ← sum_map_sub]
  simp only [Function.comp]
  have hrow : ∀ k,
      (mkTBLongRow (joinRows s) k).debit - (mkTBLongRow (joinRows s) k).credit
        = groupSum tbLongKey (fun r => r.1.debit - r.1.credit) (joinRows s) k := by
    intro k
    show (if groupSum tbLongKey (fun r => r.1.debit - r.1.credit) (joinRows s) k >= 0 then
          groupSum tbLongKey (fun r => r.1.debit - r.1.credit) (joinRows s) k else 0)
        - (if groupSum tbLongKey (fun r => r.1.debit - r.1.credit) (joinRows s) k < 0 then
          -groupSum tbLongKey (fun r => r.1.debit - r.1.credit) (joinRows s) k else 0)
        = groupSum tbLongKey (fun r => r.1.debit - r.1.credit) (joinRows s) k
    rcases le_or_lt 0 (groupSum tbLongKey (fun r => r.1.debit - r.1.credit) (joinRows s) k)
      with h | h
    · rw [if_pos h, if_neg (by omega)]
      ring
    · rw [if_neg (by omega), if_pos h]
      ring
  rw [congrArg List.sum (List.map_congr_left fun k _ => hrow k)]
  rw [((List.perm_insertionSort (fun x y => tbLongLe x y = true)
      (groupKeys tbLongKey (joinRows s))).map
      (groupSum tbLongKey (fun r => r.1.debit - r.1.credit) (joinRows s))).sum_eq]
  exact sum_groupSum _ _ _

/-- C5: for every ledger with duplicate-free account ids in which every
journal entry references an existing account, the `debit` column sum of
`trial_balance_long` equals its `credit` column sum exactly when the raw
debit total equals the raw credit total of `journal_entries`; and on the
seeded dataset the two column sums are equal. (The operation is total: an
unbalanced ledger still yields a result, with unequal sums.) -/
theorem C5_trial_balance_balances :
    (∀ s : LedgerState,
      (s.accounts.map fun a => a.account_id).Nodup →
      (∀ j ∈ s.journal_entries, ∃ a ∈ s.accounts, a.account_id = j.account_id) →
      (debitColumnSum (get_trial_balance_long s)
          = creditColumnSum (get_trial_balance_long s)
        ↔ rawDebitTotal s = rawCreditTotal s))
    ∧ debitColumnSum (get_trial_balance_long seededState)
        = creditColumnSum (get_trial_balance_long seededState) := by
  constructor
  · intro s hnd href
    have hlen : ∀ j ∈ s.journal_entries,
        (s.accounts.filter fun a => a.account_id == j.account_id).length = 1 :=
      fun j hj => length_filter_account_eq_one s.accounts j.account_id hnd (href j hj)
    have hsub : debitColumnSum (get_trial_balance_long s)
        - creditColumnSum (get_trial_balance_long s)
        = rawDebitTotal s - rawCreditTotal s := by
      rw [tb_long_column_sums, sum_joinRows_fst s (fun j => j.debit - j.credit) hlen,
        sum_map_sub]
      rfl
    constructor
    · intro h
      have h0 : rawDebitTotal s - rawCreditTotal s = 0 := by rw [← hsub, h]; ring
      linarith
    · intro h
      have h0 : debitColumnSum (get_trial_balance_long s)
          - creditColumnSum (get_trial_balance_long s) = 0 := by rw [hsub, h]; ring
      linarith
  · decide

/-- C5, witness: the equivalence applied to the seeded ledger, whose raw
totals balance. -/
theorem C5_witness :
    rawDebitTotal seededState = rawCreditTotal seededState
    ∧ debitColumnSum (get_trial_balance_long seededState)
        = creditColumnSum (get_trial_balance_long seededState) :=
  ⟨by decide,
    (C5_trial_balance_balances.1 seededState (by decide) (by decide)).mpr (by decide)⟩

/-! ## Income statement totals -/

/-- The keyed type-guarded sum of the `ie` CTE, re-expressed as a per-account
double sum: the GROUP BY, the WHERE filter and the join all reduce to summing
`g` over each matching account's own entries. Holds for `t` one of the two
types the WHERE clause admits. -/
theorem sum_ie_type (s : LedgerState) (t : String)
    (ht : t = "Revenue" ∨ t = "Expense") (g : JournalEntry → Int) :
    ((ieKeys s).map fun k =>
        if k.1 = t then groupSum ieKey (fun r => g r.1) (ieJoin s) k else 0).sum
      = ((s.accounts.filter fun a => a.account_type == t).map fun a =>
          ((s.journal_entries.filter fun j => j.account_id == a.account_id).map g).sum).sum := by
  have stepA : ∀ k ∈ ieKeys s,
      (if k.1 = t then groupSum ieKey (fun r => g r.1) (ieJoin s) k else 0)
        = groupSum ieKey (fun r => if r.2.account_type = t then g r.1 else 0)
            (ieJoin s) k := by
    intro k _
    by_cases hkt : k.1 = t
    · rw [if_pos hkt]
      refine congrArg List.sum (List.map_congr_left fun x hx => ?_)
      have htype : x.2.account_type = t := by
        rw [show x.2.account_type = k.1 from by rw [← (mem_fiber.mp hx).2]; rfl, hkt]
      rw [if_pos htype]
    · rw [if_neg hkt]
      refine Eq.symm (Eq.trans (congrArg List.sum (List.map_congr_left fun x hx => ?_))
        (sum_map_zero_fn _))
      have htype : x.2.account_type = k.1 := by rw [← (mem_fiber.mp hx).2]; rfl
      rw [if_neg (by rw [htype]; exact hkt)]
  rw [congrArg List.sum (List.map_congr_left stepA)]
  unfold ieKeys
  rw [sum_groupSum ieKey _ (ieJoin s)]
  rw [show ieJoin s = (joinRows s).filter (fun r =>
      r.2.account_type == "Revenue" || r.2.account_type == "Expense") from rfl,
    sum_filter_map]
  have stepC : ∀ r : JournalEntry × Account,
      (if (r.2.account_type == "Revenue" || r.2.account_type == "Expense") = true then
        (if r.2.account_type = t then g r.1 else 0) else 0)
        = (if r.2.account_type = t then g r.1 else 0) := by
    intro r
    by_cases hr : r.2.account_type = t
    · rcases ht with rfl | rfl <;> simp [hr]
    · simp [hr]
  rw [congrArg List.sum (List.map_congr_left fun r _ => stepC r),
    sum_joinRows_eq s _, list_sum_comm]
  trans ((s.accounts.map fun a =>
      if a.account_type = t then
        (s.journal_entries.map fun j =>
          if a.account_id = j.account_id then g j else 0).sum
      else 0).sum)
  · refine congrArg List.sum (List.map_congr_left fun a _ => ?_)
    show (s.journal_entries.map fun j =>
        if a.account_id = j.account_id then
          (if a.account_type = t then g j else 0) else 0).sum
      = if a.account_type = t then
          (s.journal_entries.map fun j =>
            if a.account_id = j.account_id then g j else 0).sum else 0
    by_cases hat : a.account_type = t
    · simp only [hat, if_true]
    · simp only [hat, if_false, ite_self, sum_map_zero_fn]
  · rw [sum_filter_map (fun a : Account => a.account_type == t)]
    refine congrArg List.sum (List.map_congr_left fun a _ => ?_)
    by_cases hat : a.account_type = t
    · rw [if_pos hat, if_pos (by rw [beq_iff_eq]; exact hat)]
      refine Eq.trans ?_ (sum_filter_map _ g _).symm
      refine congrArg List.sum (List.map_congr_left fun j _ => ?_)
      by_cases h : a.account_id = j.account_id
      · rw [if_pos h, if_pos (by rw [beq_iff_eq]; exact h.symm)]
      · rw [if_neg h, if_neg (by rw [beq_iff_eq]; exact fun hh => h hh.symm)]
    · rw [if_neg hat, if_neg (by rw [beq_iff_eq]; exact hat)]

/-- `total_revenue` as computed by `SQL_INCOME_STATEMENT` equals minus the
sum of the Revenue accounts' per-account balances. -/
theorem isRevenueTotal_eq_spec (s : LedgerState) :
    isRevenueTotal s = -revenueBalancesSum s := by
  have step1 : isRevenueTotal s
      = ((ieKeys s).map fun k =>
          if k.1 = "Revenue" then
            groupSum ieKey (fun r => -(r.1.debit - r.1.credit)) (ieJoin s) k
          else 0).sum := by
    refine congrArg List.sum (List.map_congr_left fun k _ => ?_)
    by_cases hk : k.1 = "Revenue"
    · rw [if_pos (by rw [beq_iff_eq]; exact hk), if_pos hk]
      exact (sum_map_neg _ _).symm
    · rw [if_neg (by rw [beq_iff_eq]; exact hk), if_neg hk]
  rw [step1, sum_ie_type s "Revenue" (Or.inl rfl) (fun j => -(j.debit - j.credit))]
  have step2 : ∀ a ∈ s.accounts.filter fun a => a.account_type == "Revenue",
      ((s.journal_entries.filter fun j => j.account_id == a.account_id).map
          fun j => -(j.debit - j.credit)).sum
        = -perAccountBalance s a := by
    intro a _
    exact sum_map_neg _ _
  rw [congrArg List.sum (List.map_congr_left step2), sum_map_neg]
  rfl

/-- `total_expense` as computed by `SQL_INCOME_STATEMENT` equals the sum of
the Expense accounts' per-account balances. -/
theorem isExpenseTotal_eq_spec (s : LedgerState) :
    isExpenseTotal s = expenseBalancesSum s := by
  have step1 : isExpenseTotal s
      = ((ieKeys s).map fun k =>
          if k.1 = "Expense" then
            groupSum ieKey (fun r => r.1.debit - r.1.credit) (ieJoin s) k
          else 0).sum := by
    refine congrArg List.sum (List.map_congr_left fun k _ => ?_)
    by_cases hk : k.1 = "Expense"
    · rw [if_pos (by rw [beq_iff_eq]; exact hk), if_pos hk]
      rfl
    · rw [if_neg (by rw [beq_iff_eq]; exact hk), if_neg hk]
  rw [step1, sum_ie_type s "Expense" (Or.inr rfl) (fun j => j.debit - j.credit)]
  rfl

/-- C6: for every ledger with at least one Revenue or Expense account having
entries, `get_income_statement_summary` returns a single row with
`total_revenue = −Σ(Revenue account balances)`,
`total_expense = Σ(Expense account balances)` and
`net_income = total_revenue − total_expense` (balances are `Σdebit − Σcredit`
per account); on the seeded dataset this is `(43000, 7000, 36000)`. -/
theorem C6_income_statement :
    (∀ s : LedgerState,
      (∃ a ∈ s.accounts, (a.account_type = "Revenue" ∨ a.account_type = "Expense")
          ∧ ∃ j ∈ s.journal_entries, j.account_id = a.account_id) →
      get_income_statement_summary s
        = [{ total_revenue := some (-revenueBalancesSum s)
             total_expense := some (expenseBalancesSum s)
             net_income := some (-revenueBalancesSum s - expenseBalancesSum s) }])
    ∧ get_income_statement_summary seededState
        = [{ total_revenue := some 43000, total_expense := some 7000
             net_income := some 36000 }] := by
  constructor
  · rintro s ⟨a, ha, hat, j, hj, hid⟩
    have hmem : (j, a) ∈ ieJoin s := by
      refine List.mem_filter.mpr ⟨mem_joinRows.mpr ⟨hj, ha, hid.symm⟩, ?_⟩
      rcases hat with h | h <;> simp [h]
    have hne : ieKeys s ≠ [] :=
      List.ne_nil_of_mem (mem_groupKeys.mpr ⟨(j, a), hmem, rfl⟩)
    rw [get_income_statement_summary_eq, if_neg hne, isRevenueTotal_eq_spec,
      isExpenseTotal_eq_spec]
  · decide

/-- C6, witness: the statement applied to the seeded ledger. -/
theorem C6_witness :
    (∃ a ∈ seededState.accounts,
      (a.account_type = "Revenue" ∨ a.account_type = "Expense")
        ∧ ∃ j ∈ seededState.journal_entries, j.account_id = a.account_id)
    ∧ get_income_statement_summary seededState
        = [{ total_revenue := some (-revenueBalancesSum seededState)
             total_expense := some (expenseBalancesSum seededState)
             net_income := some (-revenueBalancesSum seededState
               - expenseBalancesSum seededState) }] :=
  ⟨by decide, C6_income_statement.1 seededState (by decide)⟩

end Accounting
